import Mathlib

/-!
Verification of the capacity-assessment core of the xpk repository
(`src/xpk/core/capacity.py`): the reservation data model, the accelerator
resource matcher, the configuration validator, the slice-count calculator,
and the hierarchy flattener `assess_available_slices`.

Machine integers are modelled as `Int`; Python's floor division `//` is
`Int.fdiv`.  Python functions that can raise an uncaught `AssertionError`
return an `Option`, with `none` marking the raised exception.  The recursive
orchestrator is embedded with an explicit fuel parameter; running out of fuel
is a distinct outcome (`AssessResult.fuelOut`), and the development proves
that fuel 2 suffices, matching the code's depth-2 recursion.
-/

namespace Xpk

/-- Accelerator category of a requested system (TPU, GPU or CPU), mirroring
`AcceleratorType` used by `capacity.py`. -/
inductive AcceleratorType where
  | TPU
  | GPU
  | CPU
  deriving DecidableEq, Repr

/-- Capacity links: the three variants `ReservationLink`,
`BlockReservationLink` and `SubBlockReservationLink` over which
`capacity.py` case-dispatches by `isinstance`. -/
inductive CapacityLink where
  | ReservationLink (project : String) (name : String) (zone : String)
  | BlockReservationLink (project : String) (name : String) (zone : String)
      (block_name : String)
  | SubBlockReservationLink (project : String) (name : String) (zone : String)
      (block_name : String) (sub_block_name : String)
  deriving DecidableEq, Repr

/-- The `project` field shared by all three link variants. -/
def CapacityLink.project : CapacityLink → String
  | .ReservationLink p _ _ => p
  | .BlockReservationLink p _ _ _ => p
  | .SubBlockReservationLink p _ _ _ _ => p

/-- The `name` field shared by all three link variants. -/
def CapacityLink.name : CapacityLink → String
  | .ReservationLink _ n _ => n
  | .BlockReservationLink _ n _ _ => n
  | .SubBlockReservationLink _ n _ _ _ => n

/-- The `zone` field shared by all three link variants. -/
def CapacityLink.zone : CapacityLink → String
  | .ReservationLink _ _ z => z
  | .BlockReservationLink _ _ z _ => z
  | .SubBlockReservationLink _ _ z _ _ => z

/-- Recognizer for the block-level link variant. -/
def CapacityLink.isBlockLink : CapacityLink → Bool
  | .BlockReservationLink _ _ _ _ => true
  | _ => false

/-- An `(accelerator_type, accelerator_count)` entry of an aggregate
reservation's resource lists (`AcceleratorResource`). -/
structure AcceleratorResource where
  accelerator_type : String
  accelerator_count : Int
  deriving DecidableEq, Repr

/-- The specific-reservation payload: machine counts, machine type and the
optional guest accelerator descriptors (`SpecificReservation`). -/
structure SpecificReservation where
  count : Int
  in_use_count : Int
  machine_type : String
  guest_accelerators : List AcceleratorResource
  deriving DecidableEq, Repr

/-- The aggregate-reservation payload: reserved and in-use accelerator
resource lists (`AggregateReservation`). -/
structure AggregateReservation where
  reserved_resources : List AcceleratorResource
  in_use_resources : List AcceleratorResource
  deriving DecidableEq, Repr

/-- A fetched reservation record: its link plus the (mutually exclusive)
specific or aggregate payloads, either of which may be absent. -/
structure Reservation where
  link : CapacityLink
  specific_reservation : Option SpecificReservation
  aggregate_reservation : Option AggregateReservation
  deriving DecidableEq, Repr

/-- A healthy sub-block record returned by the accessor: its machine counts
and a back-reference link to the sub-block itself. -/
structure SubBlockInfo where
  count : Int
  in_use_count : Int
  link : CapacityLink
  deriving DecidableEq, Repr

/-- Modelled from the spec: the fields of `SystemCharacteristics` that
`capacity.py` reads (its definition lives in `system_characteristics.py`,
which is not among the sources) — the accelerator category, the required
machine type, chips per machine, and the accelerator identifier string that
`get_reservation_accelerator_type` reports for the system. -/
structure SystemCharacteristics where
  accelerator_type : AcceleratorType
  gce_machine_type : String
  chips_per_vm : Int
  accelerator_id : String
  deriving DecidableEq, Repr

/-- Modelled from the spec: `get_reservation_accelerator_type` lives in
`reservation.py`, which is not among the sources; per the spec it yields the
system's accelerator identifier string.  The empty string models a falsy
(missing) identifier, on which the matcher's initial assertion fires. -/
def get_reservation_accelerator_type (sys : SystemCharacteristics) : String :=
  sys.accelerator_id

/-- Output unit of the assessment: a capacity link paired with its available
slice count (`ReservationCapacity`). -/
structure ReservationCapacity where
  reservation : CapacityLink
  available_slices : Int
  deriving DecidableEq, Repr

/-- Modelled from the spec: the external Reservation Accessor collaborators
that `capacity.py` imports (`get_reservation`, `get_blocks_in_reservation`
and `list_healthy_sub_blocks` from `reservation.py`,
`project_id_to_project_number` from `gcloud_context.py`, and the `is_dry_run`
execution-mode flag), none of which are among the sources.  `get_reservation`
returns `none` on a fetch failure (a falsy value in the code); the two
listing operations return a list together with a return code; the
project-number resolver is a pure lookup. -/
structure Env where
  get_reservation : CapacityLink → Option Reservation
  get_blocks_in_reservation : CapacityLink → List CapacityLink × Int
  list_healthy_sub_blocks : CapacityLink → List SubBlockInfo × Int
  project_id_to_project_number : String → String
  dry_run : Bool

/-- Embedding of `_find_matching_accelerator_resource` (capacity.py
353-397).  `none` models the initial assertion on the accelerator identifier
failing; otherwise `some (result, n)` where `n` counts how many times the
`project_id_to_project_number` resolver was invoked (0 or 1). -/
def find_matching_accelerator_resource (env : Env) (reservation : Reservation)
    (sys : SystemCharacteristics) : Option (Option AcceleratorResource × Nat) :=
  let reservation_accelerator_type := get_reservation_accelerator_type sys
  if reservation_accelerator_type = "" then none
  else
    match reservation.aggregate_reservation with
    | none => some (none, 0)
    | some agg =>
      if sys.accelerator_type = AcceleratorType.TPU then
        let target_type_id := "projects/" ++ reservation.link.project ++ "/zones/"
          ++ reservation.link.zone ++ "/acceleratorTypes/" ++ reservation_accelerator_type
        match agg.reserved_resources.find?
            (fun r => r.accelerator_type == target_type_id) with
        | some r => some (some r, 0)
        | none =>
          let project_number := env.project_id_to_project_number reservation.link.project
          let target_type_number := "projects/" ++ project_number ++ "/zones/"
            ++ reservation.link.zone ++ "/acceleratorTypes/" ++ reservation_accelerator_type
          some (agg.reserved_resources.find?
            (fun r => r.accelerator_type == target_type_number), 1)
      else
        some (agg.reserved_resources.find?
          (fun r => r.accelerator_type == reservation_accelerator_type), 0)

/-- Embedding of `_verify_reservation_configuration` (capacity.py 400-452):
`some b` is the function's boolean verdict, `none` an assertion raised inside
the matcher.  Error printing is elided (it does not affect the verdict). -/
def verify_reservation_configuration (env : Env) (reservation : Reservation)
    (sys : SystemCharacteristics) : Option Bool :=
  if env.dry_run then some true
  else
    match reservation.specific_reservation with
    | some sp =>
      if sys.accelerator_type = AcceleratorType.TPU
          ∨ sys.accelerator_type = AcceleratorType.CPU then
        if sp.machine_type ≠ sys.gce_machine_type then some false
        else some true
      else if sys.accelerator_type = AcceleratorType.GPU then
        let target_accel := get_reservation_accelerator_type sys
        if sp.guest_accelerators.any
            (fun acc => acc.accelerator_type == target_accel) then some true
        else some false
      else some true
    | none =>
      match reservation.aggregate_reservation with
      | some _ =>
        match find_matching_accelerator_resource env reservation sys with
        | none => none
        | some (matching_resource, _) =>
          if matching_resource.isNone then some false else some true
      | none => some true

/-- Embedding of `_get_reservation_slices_count` (capacity.py 455-498):
`some (slices, code)` mirrors the returned pair, `none` a raised assertion
(the `assert matching_resource` on line 484, or one raised inside the
matcher). -/
def get_reservation_slices_count (env : Env) (reservation_link : CapacityLink)
    (sys : SystemCharacteristics) (vms_per_slice : Int) : Option (Int × Int) :=
  match env.get_reservation reservation_link with
  | none => some (0, 1)
  | some reservation =>
    match reservation.specific_reservation with
    | some sp =>
      some ((max 0 (sp.count - sp.in_use_count)).fdiv vms_per_slice, 0)
    | none =>
      match reservation.aggregate_reservation with
      | some agg =>
        match find_matching_accelerator_resource env reservation sys with
        | none => none
        | some (none, _) => none
        | some (some matching_resource, _) =>
          let in_use_count :=
            match agg.in_use_resources.find?
                (fun r => r.accelerator_type == matching_resource.accelerator_type) with
            | some r => r.accelerator_count
            | none => 0
          some ((max 0 (matching_resource.accelerator_count - in_use_count)).fdiv
            (vms_per_slice * sys.chips_per_vm), 0)
      | none => some ((max 0 ((0 : Int) - 0)).fdiv 1, 0)

/-- Embedding of `_get_available_slices_in_sub_block` (capacity.py 310-325):
`some (slices, code)` mirrors the returned pair, `none` the
`assert len(sub_blocks) == 1` failing (more than one record fetched). -/
def get_available_slices_in_sub_block (env : Env) (reservation : CapacityLink)
    (required_hosts : Int) : Option (Int × Int) :=
  let fetched := env.list_healthy_sub_blocks reservation
  if fetched.2 ≠ 0 ∨ fetched.1 = [] then some (0, fetched.2)
  else
    match fetched.1 with
    | [sub_block] =>
      some ((sub_block.count - sub_block.in_use_count).fdiv required_hosts, 0)
    | _ => none

/-- Embedding of `_get_healthy_and_fitting_sub_blocks_in_block`
(capacity.py 328-350). -/
def get_healthy_and_fitting_sub_blocks_in_block (env : Env)
    (reservation : CapacityLink) (required_hosts : Int) :
    List ReservationCapacity × Int :=
  let fetched := env.list_healthy_sub_blocks reservation
  if fetched.2 ≠ 0 then ([], fetched.2)
  else
    let available_capacities := fetched.1.map (fun sub_block =>
      ReservationCapacity.mk sub_block.link
        ((sub_block.count - sub_block.in_use_count).fdiv required_hosts))
    (available_capacities.filter
      (fun capacity => decide (0 < capacity.available_slices)), 0)

/-- Outcome of the (recursive) orchestrator: result list and return code on a
normal return, an uncaught assertion, or fuel exhaustion of the embedding. -/
inductive AssessResult where
  | fuelOut : AssessResult
  | exn : AssessResult
  | ok : List ReservationCapacity → Int → AssessResult
  deriving DecidableEq, Repr

/-- Embedding of `_assess_available_slices_for_reservation` (capacity.py
247-307), parameterized by the recursive re-entry `recurse` into
`assess_available_slices` used for a reservation-level link whose block list
is non-empty under sub-block targeting. -/
def assess_for_reservation (recurse : List CapacityLink → AssessResult)
    (env : Env) (reservation : CapacityLink) (force_sub_block_targeting : Bool)
    (sys : SystemCharacteristics) (vms_per_slice : Int) : AssessResult :=
  match reservation with
  | .SubBlockReservationLink _ _ _ _ _ =>
    match get_available_slices_in_sub_block env reservation vms_per_slice with
    | none => .exn
    | some (available_slices, return_code) =>
      if return_code ≠ 0 then .ok [] 1
      else if 0 < available_slices then
        .ok [ReservationCapacity.mk reservation available_slices] 0
      else .ok [] 0
  | .BlockReservationLink _ _ _ _ =>
    if force_sub_block_targeting then
      let result := get_healthy_and_fitting_sub_blocks_in_block env reservation vms_per_slice
      .ok result.1 result.2
    else
      match get_reservation_slices_count env reservation sys vms_per_slice with
      | none => .exn
      | some (slices_count, return_code) =>
        if return_code ≠ 0 then .ok [] return_code
        else if 0 < slices_count then
          .ok [ReservationCapacity.mk reservation slices_count] 0
        else .ok [] 0
  | .ReservationLink _ _ _ =>
    if force_sub_block_targeting then
      let fetched := env.get_blocks_in_reservation reservation
      if fetched.2 ≠ 0 then .ok [] fetched.2
      else if fetched.1 = [] then .ok [] 0
      else recurse fetched.1
    else
      match get_reservation_slices_count env reservation sys vms_per_slice with
      | none => .exn
      | some (slices_count, return_code) =>
        if return_code ≠ 0 then .ok [] return_code
        else if 0 < slices_count then
          .ok [ReservationCapacity.mk reservation slices_count] 0
        else .ok [] 0

/-- First-occurrence de-duplication worker: keeps an element iff it is not in
`seen`, recording kept elements.  Together with `dedupFirst` this embeds
Python's `list(dict.fromkeys(reservation_capacities))` (capacity.py 242). -/
def dedupFirstGo {α : Type} [DecidableEq α] (seen : List α) : List α → List α
  | [] => []
  | x :: xs =>
    if x ∈ seen then dedupFirstGo seen xs
    else x :: dedupFirstGo (x :: seen) xs

/-- De-duplication preserving the first occurrence of each element, the
semantics of `list(dict.fromkeys(...))` on line 242 of capacity.py. -/
def dedupFirst {α : Type} [DecidableEq α] (l : List α) : List α :=
  dedupFirstGo [] l

/-- The per-link loop body of `assess_available_slices` (capacity.py
217-239): optional validation, per-link assessment, fail-fast error
propagation, the `validate`-gated no-capacity error, and accumulation. -/
def assess_loop (env : Env) (per : CapacityLink → AssessResult)
    (sys : SystemCharacteristics) (validate_reservations : Bool) :
    List CapacityLink → AssessResult
  | [] => .ok [] 0
  | link :: rest =>
    let step : AssessResult :=
      match per link with
      | .fuelOut => .fuelOut
      | .exn => .exn
      | .ok capacities return_code =>
        if return_code ≠ 0 then .ok [] return_code
        else if capacities = [] ∧ validate_reservations then .ok [] 1
        else
          match assess_loop env per sys validate_reservations rest with
          | .fuelOut => .fuelOut
          | .exn => .exn
          | .ok caps2 code2 =>
            if code2 ≠ 0 then .ok caps2 code2 else .ok (capacities ++ caps2) 0
    if validate_reservations then
      match env.get_reservation link with
      | none => .ok [] 1
      | some parent_reservation =>
        match verify_reservation_configuration env parent_reservation sys with
        | none => .exn
        | some false => .ok [] 1
        | some true => step
    else step

/-- Fueled embedding of `assess_available_slices` (capacity.py 198-244).
Each entry into the function consumes one unit of fuel; the single recursive
re-entry (through `_assess_available_slices_for_reservation`) runs at one
unit less, with `validate_reservations` false. -/
def assess_fuel : Nat → Env → List CapacityLink → Bool → SystemCharacteristics
    → Int → Bool → AssessResult
  | 0, _, _, _, _, _, _ => .fuelOut
  | fuel + 1, env, links, force_sub_block_targeting, sys, vms_per_slice,
      validate_reservations =>
    match assess_loop env
        (fun link => assess_for_reservation
          (fun blocks => assess_fuel fuel env blocks force_sub_block_targeting
            sys vms_per_slice false)
          env link force_sub_block_targeting sys vms_per_slice)
        sys validate_reservations links with
    | .ok capacities return_code =>
      if return_code ≠ 0 then .ok capacities return_code
      else .ok (dedupFirst capacities) 0
    | r => r

/-- The per-link assessment as run inside `assess_fuel (fuel + 1)`: the
recursive re-entry carries `fuel` and `validate_reservations := false`. -/
def assess_for_reservation_fuel (fuel : Nat) (env : Env)
    (reservation : CapacityLink) (force_sub_block_targeting : Bool)
    (sys : SystemCharacteristics) (vms_per_slice : Int) : AssessResult :=
  assess_for_reservation
    (fun blocks => assess_fuel fuel env blocks force_sub_block_targeting
      sys vms_per_slice false)
    env reservation force_sub_block_targeting sys vms_per_slice

/-- The exported operation: the code's recursion depth is bounded by 2
(reservation → block → sub-block), so fuel 2 realizes
`assess_available_slices` exactly (proved below for well-formed accessors). -/
def assess_available_slices (env : Env) (reservations : List CapacityLink)
    (force_sub_block_targeting : Bool) (sys : SystemCharacteristics)
    (vms_per_slice : Int) (validate_reservations : Bool) : AssessResult :=
  assess_fuel 2 env reservations force_sub_block_targeting sys vms_per_slice
    validate_reservations

/-- Modelled from the spec: `get_blocks_in_reservation` (in `reservation.py`,
not among the sources) fetches "the block list for the reservation", i.e.
every link it returns is a block-level link. -/
def Env.WellFormedBlocks (env : Env) : Prop :=
  ∀ l b, b ∈ (env.get_blocks_in_reservation l).1 → b.isBlockLink = true

end Xpk

namespace Xpk

lemma fdiv_nonpos_of_nonpos {x d : Int} (hx : x ≤ 0) (hd : 0 < d) : x.fdiv d ≤ 0 := by
  rcases lt_or_eq_of_le hx with h | h
  · exact le_of_lt (Int.fdiv_neg' h hd)
  · rw [h]
    simp

lemma pos_sub_of_fdiv_pos {c i d : Int} (hd : 0 < d) (h : 0 < (c - i).fdiv d) : 0 < c - i := by
  by_contra hle
  push_neg at hle
  exact absurd h (not_lt.mpr (fdiv_nonpos_of_nonpos hle hd))

lemma mem_dedupFirstGo {α : Type} [DecidableEq α] (seen l : List α) (a : α) :
    a ∈ dedupFirstGo seen l ↔ a ∈ l ∧ a ∉ seen := by
  induction l generalizing seen with
  | nil => simp [dedupFirstGo]
  | cons x xs ih =>
    by_cases hx : x ∈ seen
    · simp only [dedupFirstGo, if_pos hx, ih, List.mem_cons]
      constructor
      · rintro ⟨h1, h2⟩
        exact ⟨Or.inr h1, h2⟩
      · rintro ⟨h1 | h1, h2⟩
        · subst h1
          exact absurd hx h2
        · exact ⟨h1, h2⟩
    · simp only [dedupFirstGo, if_neg hx, List.mem_cons, ih]
      by_cases hax : a = x
      · subst hax
        simp [hx]
      · simp [hax, List.mem_cons]

lemma nodup_dedupFirstGo {α : Type} [DecidableEq α] (seen l : List α) :
    (dedupFirstGo seen l).Nodup := by
  induction l generalizing seen with
  | nil => simp [dedupFirstGo]
  | cons x xs ih =>
    by_cases hx : x ∈ seen
    · simpa only [dedupFirstGo, if_pos hx] using ih seen
    · simp only [dedupFirstGo, if_neg hx]
      refine List.nodup_cons.mpr ⟨?_, ih (x :: seen)⟩
      rw [mem_dedupFirstGo]
      rintro ⟨-, h2⟩
      exact h2 (List.mem_cons_self x seen)

lemma sublist_dedupFirstGo {α : Type} [DecidableEq α] (seen l : List α) :
    (dedupFirstGo seen l).Sublist l := by
  induction l generalizing seen with
  | nil => simp [dedupFirstGo]
  | cons x xs ih =>
    by_cases hx : x ∈ seen
    · simp only [dedupFirstGo, if_pos hx]
      exact (ih seen).cons x
    · simp only [dedupFirstGo, if_neg hx]
      exact (ih (x :: seen)).cons₂ x

lemma indexOf_dedupFirstGo {α : Type} [DecidableEq α] (seen l : List α) (a b : α)
    (ha : a ∈ l) (hb : b ∈ l) (ha' : a ∉ seen) (hb' : b ∉ seen) :
    (dedupFirstGo seen l).indexOf a < (dedupFirstGo seen l).indexOf b
      ↔ l.indexOf a < l.indexOf b := by
  induction l generalizing seen with
  | nil => cases ha
  | cons x xs ih =>
    by_cases hab : a = b
    · subst hab
      simp
    by_cases hx : x ∈ seen
    · have hax : a ≠ x := fun h => ha' (by rw [h]; exact hx)
      have hbx : b ≠ x := fun h => hb' (by rw [h]; exact hx)
      have ha2 : a ∈ xs := by
        rcases List.mem_cons.mp ha with h | h
        · exact absurd h hax
        · exact h
      have hb2 : b ∈ xs := by
        rcases List.mem_cons.mp hb with h | h
        · exact absurd h hbx
        · exact h
      simp only [dedupFirstGo, if_pos hx]
      rw [List.indexOf_cons_ne xs (Ne.symm hax), List.indexOf_cons_ne xs (Ne.symm hbx),
        Nat.succ_lt_succ_iff]
      exact ih seen ha2 hb2 ha' hb'
    · simp only [dedupFirstGo, if_neg hx]
      by_cases hax : a = x
      · subst hax
        rw [List.indexOf_cons_self, List.indexOf_cons_self,
          List.indexOf_cons_ne _ hab, List.indexOf_cons_ne _ hab]
        simp
      · by_cases hbx : b = x
        · subst hbx
          rw [List.indexOf_cons_self, List.indexOf_cons_self]
          simp
        · have ha2 : a ∈ xs := by
            rcases List.mem_cons.mp ha with h | h
            · exact absurd h hax
            · exact h
          have hb2 : b ∈ xs := by
            rcases List.mem_cons.mp hb with h | h
            · exact absurd h hbx
            · exact h
          rw [List.indexOf_cons_ne _ (Ne.symm hax), List.indexOf_cons_ne _ (Ne.symm hbx),
            List.indexOf_cons_ne _ (Ne.symm hax), List.indexOf_cons_ne _ (Ne.symm hbx),
            Nat.succ_lt_succ_iff, Nat.succ_lt_succ_iff]
          refine ih (x :: seen) ha2 hb2 ?_ ?_
          · simp [List.mem_cons, hax, ha']
          · simp [List.mem_cons, hbx, hb']

lemma dedupFirst_ne_nil {α : Type} [DecidableEq α] {l : List α} (h : l ≠ []) :
    dedupFirst l ≠ [] := by
  cases l with
  | nil => exact absurd rfl h
  | cons x xs => simp [dedupFirst, dedupFirstGo]

end Xpk

namespace Xpk

def linkR : CapacityLink := .ReservationLink "p" "r" "z"

def sysTpu : SystemCharacteristics := ⟨.TPU, "m", 1, "a"⟩

def agg2 : AggregateReservation :=
  ⟨[⟨"projects/p/zones/z/acceleratorTypes/a", 100⟩],
    [⟨"projects/p/zones/z/acceleratorTypes/a", 20⟩]⟩

def res2 : Reservation := ⟨linkR, none, some agg2⟩

def env2 : Env :=
  ⟨fun _ => some res2, fun _ => ([], 0), fun _ => ([], 0), fun p => p, false⟩

def linkB : CapacityLink := .BlockReservationLink "p" "r" "z" "b"

def linkS1 : CapacityLink := .SubBlockReservationLink "p" "r" "z" "b" "s1"

def linkS2 : CapacityLink := .SubBlockReservationLink "p" "r" "z" "b" "s2"

def envFl : Env :=
  ⟨fun _ => some ⟨linkR, some ⟨10, 2, "m", []⟩, none⟩,
    fun _ => ([linkB], 0),
    fun l =>
      match l with
      | .BlockReservationLink _ _ _ _ => ([⟨4, 1, linkS1⟩, ⟨6, 1, linkS2⟩], 0)
      | .SubBlockReservationLink _ _ _ _ _ => ([⟨6, 1, linkS2⟩], 0)
      | _ => ([], 1),
    fun p => p, false⟩


end Xpk

namespace Xpk

/-- C10: a reservation record with neither the specific nor the aggregate
payload populated passes `_verify_reservation_configuration` for every system
and every execution mode (dry-run or not), and — once fetched — the slice
calculator reports zero available slices with success code, so the malformed
record surfaces only as a zero-capacity outcome. -/
theorem c10_missing_payloads_pass_validation (env : Env) (res : Reservation)
    (sys : SystemCharacteristics)
    (hs : res.specific_reservation = none)
    (ha : res.aggregate_reservation = none) :
    verify_reservation_configuration env res sys = some true
    ∧ ∀ link vps, env.get_reservation link = some res →
        get_reservation_slices_count env link sys vps = some (0, 0) := by
  constructor
  · simp [verify_reservation_configuration, hs, ha]
  · intro link vps hres
    simp [get_reservation_slices_count, hres, hs, ha]

def res10 : Reservation := ⟨linkR, none, none⟩

def env10 : Env :=
  ⟨fun _ => some res10, fun _ => ([], 0), fun _ => ([], 0), fun p => p, false⟩

/-- Witness for C10 at a concrete payload-free reservation record. -/
theorem c10_witness :
    (res10.specific_reservation = none ∧ res10.aggregate_reservation = none)
    ∧ (verify_reservation_configuration env10 res10 sysTpu = some true
      ∧ ∀ link vps, env10.get_reservation link = some res10 →
          get_reservation_slices_count env10 link sysTpu vps = some (0, 0)) :=
  ⟨⟨rfl, rfl⟩, c10_missing_payloads_pass_validation env10 res10 sysTpu rfl rfl⟩

def env1c : Env :=
  ⟨fun _ => none, fun _ => ([], 0), fun l => ([⟨1, 3, l⟩], 0), fun p => p, false⟩

/-- C1 counterexample: on the sub-block path the code computes
`(count - in_use_count) // machines_per_slice` without the `max 0` clamp, so
with `count = 1`, `in_use_count = 3` and `machines_per_slice = 2` the value
returned by `_get_available_slices_in_sub_block` is `-1`: negative, and
different from the claim's `max 0 (count - in_use_count) // 2 = 0`. -/
theorem c1_counterexample :
    get_available_slices_in_sub_block env1c
        (.SubBlockReservationLink "p" "r" "z" "b" "s") 2 = some (-1, 0)
    ∧ ((-1 : Int) ≠ (max 0 ((1 : Int) - 3)).fdiv 2 ∧ (-1 : Int) < 0) :=
  ⟨by decide, by decide, by decide⟩

/-- C1 (amended): the whole-reservation specific path computes
`max 0 (count - in_use_count) // machines_per_slice` and is never negative;
the sub-block path computes `(count - in_use_count) // machines_per_slice`
without the clamp — equal to the claimed formula whenever
`in_use_count ≤ count` — and block flattening emits exactly the entries whose
(unclamped) slice count is strictly positive, each therefore equal to the
claimed clamped formula. -/
theorem c1_amended_slice_count_formulas :
    (∀ env link sys vps res sp,
      env.get_reservation link = some res →
      res.specific_reservation = some sp →
      get_reservation_slices_count env link sys vps
        = some ((max 0 (sp.count - sp.in_use_count)).fdiv vps, 0)
      ∧ (1 ≤ vps → 0 ≤ (max 0 (sp.count - sp.in_use_count)).fdiv vps))
    ∧ (∀ env link vps sb,
      env.list_healthy_sub_blocks link = ([sb], 0) →
      get_available_slices_in_sub_block env link vps
        = some ((sb.count - sb.in_use_count).fdiv vps, 0)
      ∧ (sb.in_use_count ≤ sb.count →
        (sb.count - sb.in_use_count).fdiv vps
          = (max 0 (sb.count - sb.in_use_count)).fdiv vps))
    ∧ (∀ env link vps c, 1 ≤ vps →
      c ∈ (get_healthy_and_fitting_sub_blocks_in_block env link vps).1 →
      ∃ sb, sb ∈ (env.list_healthy_sub_blocks link).1
        ∧ c.reservation = sb.link
        ∧ c.available_slices = (max 0 (sb.count - sb.in_use_count)).fdiv vps
        ∧ 0 < c.available_slices) := by
  refine ⟨?_, ?_, ?_⟩
  · intro env link sys vps res sp hres hsp
    constructor
    · simp [get_reservation_slices_count, hres, hsp]
    · intro hv
      exact Int.fdiv_nonneg (le_max_left 0 _) (by omega)
  · intro env link vps sb hl
    constructor
    · simp [get_available_slices_in_sub_block, hl]
    · intro hle
      rw [max_eq_right (sub_nonneg.mpr hle)]
  · intro env link vps c hv hc
    by_cases h2 : (env.list_healthy_sub_blocks link).2 ≠ 0
    · simp [get_healthy_and_fitting_sub_blocks_in_block, h2] at hc
    · simp only [get_healthy_and_fitting_sub_blocks_in_block, if_neg h2, List.mem_filter,
        List.mem_map, decide_eq_true_eq] at hc
      obtain ⟨⟨sb, hsb, rfl⟩, hpos⟩ := hc
      refine ⟨sb, hsb, rfl, ?_, hpos⟩
      have hsub : 0 < sb.count - sb.in_use_count :=
        pos_sub_of_fdiv_pos (by omega) hpos
      show (sb.count - sb.in_use_count).fdiv vps = _
      rw [max_eq_right (le_of_lt hsub)]

/-- Witness for the amended C1 at a concrete specific reservation. -/
theorem c1_amended_witness :
    envFl.get_reservation linkR = some ⟨linkR, some ⟨10, 2, "m", []⟩, none⟩
    ∧ (get_reservation_slices_count envFl linkR sysTpu 2
        = some ((max 0 ((10 : Int) - 2)).fdiv 2, 0)
      ∧ (1 ≤ (2 : Int) → 0 ≤ (max 0 ((10 : Int) - 2)).fdiv 2)) :=
  ⟨rfl, c1_amended_slice_count_formulas.1 envFl linkR sysTpu 2
    ⟨linkR, some ⟨10, 2, "m", []⟩, none⟩ ⟨10, 2, "m", []⟩ rfl rfl⟩

/-- C2: for an aggregate reservation whose matcher finds a reserved resource,
`_get_reservation_slices_count` returns
`max 0 (reserved.count - matching_in_use.count) // (machines_per_slice *
chips_per_machine)`, with the in-use count looked up in `in_use_resources` by
accelerator-identifier equality with the matched resource and defaulting to 0
when no such in-use entry exists. -/
theorem c2_aggregate_reservation_accounting (env : Env) (link : CapacityLink)
    (sys : SystemCharacteristics) (vps : Int) (res : Reservation)
    (agg : AggregateReservation) (m : AcceleratorResource) (k : Nat)
    (hres : env.get_reservation link = some res)
    (hs : res.specific_reservation = none)
    (ha : res.aggregate_reservation = some agg)
    (hm : find_matching_accelerator_resource env res sys = some (some m, k)) :
    get_reservation_slices_count env link sys vps
      = some ((max 0 (m.accelerator_count -
          (match agg.in_use_resources.find?
              (fun r => r.accelerator_type == m.accelerator_type) with
            | some r => r.accelerator_count
            | none => 0))).fdiv (vps * sys.chips_per_vm), 0)
    ∧ ((∀ r ∈ agg.in_use_resources, r.accelerator_type ≠ m.accelerator_type) →
      get_reservation_slices_count env link sys vps
        = some ((max 0 m.accelerator_count).fdiv (vps * sys.chips_per_vm), 0)) := by
  have h1 : get_reservation_slices_count env link sys vps
      = some ((max 0 (m.accelerator_count -
          (match agg.in_use_resources.find?
              (fun r => r.accelerator_type == m.accelerator_type) with
            | some r => r.accelerator_count
            | none => 0))).fdiv (vps * sys.chips_per_vm), 0) := by
    simp [get_reservation_slices_count, hres, hs, ha, hm]
  refine ⟨h1, fun hnone => ?_⟩
  rw [h1]
  have hfind : agg.in_use_resources.find?
      (fun r => r.accelerator_type == m.accelerator_type) = none := by
    rw [List.find?_eq_none]
    intro r hr
    simpa using hnone r hr
  rw [hfind]
  simp

/-- Witness for C2 at a concrete aggregate reservation with an in-use entry. -/
theorem c2_witness :
    (env2.get_reservation linkR = some res2
      ∧ find_matching_accelerator_resource env2 res2 sysTpu
        = some (some ⟨"projects/p/zones/z/acceleratorTypes/a", 100⟩, 0))
    ∧ get_reservation_slices_count env2 linkR sysTpu 1
      = some ((max 0 ((100 : Int) -
          (match agg2.in_use_resources.find?
              (fun r => r.accelerator_type == "projects/p/zones/z/acceleratorTypes/a") with
            | some r => r.accelerator_count
            | none => 0))).fdiv (1 * sysTpu.chips_per_vm), 0) :=
  ⟨⟨rfl, by decide⟩,
    (c2_aggregate_reservation_accounting env2 linkR sysTpu 1 res2 agg2
      ⟨"projects/p/zones/z/acceleratorTypes/a", 100⟩ 0 rfl rfl rfl (by decide)).1⟩

/-- C3: for a TPU system on an aggregate reservation, the matcher first scans
`reserved_resources` for the identifier built with the literal project
string; a hit returns that resource with the project-number resolver invoked
zero times, and only when that scan misses is the resolver invoked (exactly
once), with the result of scanning for the project-number form returned. -/
theorem c3_matcher_project_number_fallback (env : Env) (res : Reservation)
    (sys : SystemCharacteristics) (agg : AggregateReservation)
    (htpu : sys.accelerator_type = AcceleratorType.TPU)
    (ha : res.aggregate_reservation = some agg)
    (hid : get_reservation_accelerator_type sys ≠ "") :
    (∀ r, agg.reserved_resources.find? (fun x => x.accelerator_type ==
        ("projects/" ++ res.link.project ++ "/zones/" ++ res.link.zone
          ++ "/acceleratorTypes/" ++ get_reservation_accelerator_type sys)) = some r →
      find_matching_accelerator_resource env res sys = some (some r, 0))
    ∧ (agg.reserved_resources.find? (fun x => x.accelerator_type ==
        ("projects/" ++ res.link.project ++ "/zones/" ++ res.link.zone
          ++ "/acceleratorTypes/" ++ get_reservation_accelerator_type sys)) = none →
      find_matching_accelerator_resource env res sys
        = some (agg.reserved_resources.find? (fun x => x.accelerator_type ==
            ("projects/" ++ env.project_id_to_project_number res.link.project
              ++ "/zones/" ++ res.link.zone ++ "/acceleratorTypes/"
              ++ get_reservation_accelerator_type sys)), 1)) := by
  constructor
  · intro r hr
    simp [find_matching_accelerator_resource, ha, htpu, hid, hr]
  · intro hnone
    simp [find_matching_accelerator_resource, ha, htpu, hid, hnone]

def agg3 : AggregateReservation :=
  ⟨[⟨"projects/12345/zones/z/acceleratorTypes/a", 7⟩], []⟩

def res3 : Reservation := ⟨linkR, none, some agg3⟩

def env3 : Env :=
  ⟨fun _ => some res3, fun _ => ([], 0), fun _ => ([], 0), fun _ => "12345", false⟩

/-- Witness for C3 at a reservation matching only via the project number. -/
theorem c3_witness :
    (sysTpu.accelerator_type = AcceleratorType.TPU
      ∧ res3.aggregate_reservation = some agg3
      ∧ get_reservation_accelerator_type sysTpu ≠ "")
    ∧ find_matching_accelerator_resource env3 res3 sysTpu
      = some (agg3.reserved_resources.find? (fun x => x.accelerator_type ==
          ("projects/" ++ env3.project_id_to_project_number res3.link.project
            ++ "/zones/" ++ res3.link.zone ++ "/acceleratorTypes/"
            ++ get_reservation_accelerator_type sysTpu)), 1) :=
  ⟨⟨rfl, rfl, by decide⟩,
    (c3_matcher_project_number_fallback env3 res3 sysTpu agg3 rfl rfl
      (by decide)).2 (by decide)⟩

end Xpk

namespace Xpk

def env5c : Env :=
  ⟨fun _ => none, fun _ => ([], 0), fun _ => ([], 0), fun p => p, false⟩

/-- C5 counterexample: a sub-block fetch resolving to zero records is not
treated as a fetch error — `_get_available_slices_in_sub_block` returns
`(0, 0)` (success code) and the per-link assessment returns the non-aborting
outcome `([], 0)` instead of aborting. -/
theorem c5_counterexample :
    get_available_slices_in_sub_block env5c
        (.SubBlockReservationLink "p" "r" "z" "b" "s") 1 = some (0, 0)
    ∧ assess_for_reservation_fuel 1 env5c
        (.SubBlockReservationLink "p" "r" "z" "b" "s") false sysTpu 1 = .ok [] 0 :=
  ⟨by decide, by decide⟩

/-- C5 (amended): a sub-block fetch resolving to zero records yields zero
slices with success code (no abort; the sub-block merely contributes no
capacity entry), while more than one record fails the
`assert len(sub_blocks) == 1` and raises (embedded as `exn`); with exactly
one record, one capacity entry is emitted iff the computed slice count is
strictly positive. -/
theorem c5_amended_sub_block_fetch_multiplicity :
    (∀ env (l : CapacityLink) (vps : Int),
      env.list_healthy_sub_blocks l = ([], 0) →
      get_available_slices_in_sub_block env l vps = some (0, 0))
    ∧ (∀ n env p nm z b s force sys (vps : Int),
      env.list_healthy_sub_blocks (.SubBlockReservationLink p nm z b s) = ([], 0) →
      assess_for_reservation_fuel n env (.SubBlockReservationLink p nm z b s)
        force sys vps = .ok [] 0)
    ∧ (∀ env (l : CapacityLink) (vps : Int) sb1 sb2 rest,
      env.list_healthy_sub_blocks l = (sb1 :: sb2 :: rest, 0) →
      get_available_slices_in_sub_block env l vps = none)
    ∧ (∀ n env p nm z b s force sys (vps : Int) sb1 sb2 rest,
      env.list_healthy_sub_blocks (.SubBlockReservationLink p nm z b s)
        = (sb1 :: sb2 :: rest, 0) →
      assess_for_reservation_fuel n env (.SubBlockReservationLink p nm z b s)
        force sys vps = .exn)
    ∧ (∀ n env p nm z b s force sys (vps : Int) sb,
      env.list_healthy_sub_blocks (.SubBlockReservationLink p nm z b s) = ([sb], 0) →
      assess_for_reservation_fuel n env (.SubBlockReservationLink p nm z b s)
        force sys vps
        = (if 0 < (sb.count - sb.in_use_count).fdiv vps
          then .ok [⟨.SubBlockReservationLink p nm z b s,
            (sb.count - sb.in_use_count).fdiv vps⟩] 0
          else .ok [] 0)) := by
  have hzero : ∀ env (l : CapacityLink) (vps : Int),
      env.list_healthy_sub_blocks l = ([], 0) →
      get_available_slices_in_sub_block env l vps = some (0, 0) := by
    intro env l vps h
    simp [get_available_slices_in_sub_block, h]
  have htwo : ∀ env (l : CapacityLink) (vps : Int) sb1 sb2 rest,
      env.list_healthy_sub_blocks l = (sb1 :: sb2 :: rest, 0) →
      get_available_slices_in_sub_block env l vps = none := by
    intro env l vps sb1 sb2 rest h
    simp [get_available_slices_in_sub_block, h]
  have hone : ∀ env (l : CapacityLink) (vps : Int) sb,
      env.list_healthy_sub_blocks l = ([sb], 0) →
      get_available_slices_in_sub_block env l vps
        = some ((sb.count - sb.in_use_count).fdiv vps, 0) := by
    intro env l vps sb h
    simp [get_available_slices_in_sub_block, h]
  refine ⟨hzero, ?_, htwo, ?_, ?_⟩
  · intro n env p nm z b s force sys vps h
    simp [assess_for_reservation_fuel, assess_for_reservation,
      hzero env (.SubBlockReservationLink p nm z b s) vps h]
  · intro n env p nm z b s force sys vps sb1 sb2 rest h
    simp [assess_for_reservation_fuel, assess_for_reservation,
      htwo env (.SubBlockReservationLink p nm z b s) vps sb1 sb2 rest h]
  · intro n env p nm z b s force sys vps sb h
    have hg := hone env (.SubBlockReservationLink p nm z b s) vps sb h
    by_cases hpos : 0 < (sb.count - sb.in_use_count).fdiv vps
    · simp [assess_for_reservation_fuel, assess_for_reservation, hg, hpos]
    · simp [assess_for_reservation_fuel, assess_for_reservation, hg, hpos]

/-- Witness for the amended C5: an exactly-one-record fetch at a concrete
environment emits one entry with its positive slice count. -/
theorem c5_amended_witness :
    envFl.list_healthy_sub_blocks (.SubBlockReservationLink "p" "r" "z" "b" "s2")
      = ([⟨6, 1, linkS2⟩], 0)
    ∧ assess_for_reservation_fuel 0 envFl
        (.SubBlockReservationLink "p" "r" "z" "b" "s2") false sysTpu 2
      = (if 0 < ((6 : Int) - 1).fdiv 2
        then .ok [⟨.SubBlockReservationLink "p" "r" "z" "b" "s2",
          ((6 : Int) - 1).fdiv 2⟩] 0
        else .ok [] 0) :=
  ⟨rfl, c5_amended_sub_block_fetch_multiplicity.2.2.2.2 0 envFl "p" "r" "z" "b" "s2"
    false sysTpu 2 ⟨6, 1, linkS2⟩ rfl⟩

def res8 : Reservation := ⟨linkR, none, some ⟨[⟨"x", 1⟩], []⟩⟩

def env8 : Env :=
  ⟨fun _ => some res8, fun _ => ([], 0), fun _ => ([], 0), fun p => p, false⟩

/-- C8 counterexample: for an aggregate reservation whose `reserved_resources`
contain no entry matching the system's accelerator identifier, the slice
calculator hits `assert matching_resource` (capacity.py line 484) and raises
past its boundary (embedded as `none`) instead of returning a typed outcome. -/
theorem c8_counterexample :
    get_reservation_slices_count env8 linkR sysTpu 1 = none := by decide

lemma find_matching_isSome (env : Env) (res : Reservation)
    (sys : SystemCharacteristics)
    (hid : get_reservation_accelerator_type sys ≠ "") :
    (find_matching_accelerator_resource env res sys).isSome = true := by
  simp only [find_matching_accelerator_resource]
  rw [if_neg hid]
  rcases hagg : res.aggregate_reservation with _ | agg
  · simp [hagg]
  · simp only [hagg]
    split
    · split <;> rfl
    · rfl

lemma verify_isSome (env : Env) (res : Reservation) (sys : SystemCharacteristics)
    (hid : get_reservation_accelerator_type sys ≠ "") :
    (verify_reservation_configuration env res sys).isSome = true := by
  unfold verify_reservation_configuration
  split
  · rfl
  · rcases hsp : res.specific_reservation with _ | sp
    · simp only [hsp]
      rcases hagg : res.aggregate_reservation with _ | agg
      · simp [hagg]
      · simp only [hagg]
        have h := find_matching_isSome env res sys hid
        rw [Option.isSome_iff_exists] at h
        obtain ⟨⟨m, k⟩, hx⟩ := h
        simp only [hx]
        split <;> rfl
    · simp only [hsp]
      split
      · split <;> rfl
      · split
        · split <;> rfl
        · rfl

lemma slices_count_isSome (env : Env) (link : CapacityLink)
    (sys : SystemCharacteristics) (vps : Int)
    (hagg : ∀ res agg, env.get_reservation link = some res →
      res.specific_reservation = none → res.aggregate_reservation = some agg →
      ∃ r k, find_matching_accelerator_resource env res sys = some (some r, k)) :
    (get_reservation_slices_count env link sys vps).isSome = true := by
  unfold get_reservation_slices_count
  rcases hres : env.get_reservation link with _ | res
  · simp [hres]
  · simp only [hres]
    rcases hsp : res.specific_reservation with _ | sp
    · simp only [hsp]
      rcases hag : res.aggregate_reservation with _ | agg
      · simp [hag]
      · simp only [hag]
        obtain ⟨r, k, hm⟩ := hagg res agg hres hsp hag
        simp [hm]
    · simp [hsp]

/-- C8 (amended): the matcher and the validator return typed outcomes for
every input whose accelerator identifier is present (non-empty), and the
slice calculator returns a typed outcome for every reservation record except
an aggregate one without a matching reserved resource, where its internal
assertion fails (the situation of the counterexample). -/
theorem c8_amended_component_boundaries :
    (∀ env res sys, get_reservation_accelerator_type sys ≠ "" →
      (find_matching_accelerator_resource env res sys).isSome = true)
    ∧ (∀ env res sys, get_reservation_accelerator_type sys ≠ "" →
      (verify_reservation_configuration env res sys).isSome = true)
    ∧ (∀ env link sys vps,
      (∀ res agg, env.get_reservation link = some res →
        res.specific_reservation = none → res.aggregate_reservation = some agg →
        ∃ r k, find_matching_accelerator_resource env res sys = some (some r, k)) →
      (get_reservation_slices_count env link sys vps).isSome = true) :=
  ⟨find_matching_isSome, verify_isSome, slices_count_isSome⟩

/-- Witness for the amended C8 at a concrete aggregate environment. -/
theorem c8_amended_witness :
    (get_reservation_accelerator_type sysTpu ≠ "")
    ∧ (find_matching_accelerator_resource env2 res2 sysTpu).isSome = true :=
  ⟨by decide, c8_amended_component_boundaries.1 env2 res2 sysTpu (by decide)⟩

end Xpk

namespace Xpk

lemma assess_fuel_eq_loop (n : Nat) (env : Env) (links : List CapacityLink)
    (force : Bool) (sys : SystemCharacteristics) (vps : Int) (validate : Bool) :
    assess_fuel (n + 1) env links force sys vps validate
      = match assess_loop env
          (fun l => assess_for_reservation_fuel n env l force sys vps)
          sys validate links with
        | .ok caps rc => if rc ≠ 0 then .ok caps rc else .ok (dedupFirst caps) 0
        | r => r := rfl

lemma assess_loop_cons_ok_zero (env : Env) (per : CapacityLink → AssessResult)
    (sys : SystemCharacteristics) (x : CapacityLink) (xs : List CapacityLink)
    (caps : List ReservationCapacity)
    (h : assess_loop env per sys true (x :: xs) = .ok caps 0) :
    ∃ parent capsx caps2, env.get_reservation x = some parent
      ∧ verify_reservation_configuration env parent sys = some true
      ∧ per x = .ok capsx 0 ∧ capsx ≠ []
      ∧ assess_loop env per sys true xs = .ok caps2 0
      ∧ caps = capsx ++ caps2 := by
  simp only [assess_loop] at h
  rw [if_pos trivial] at h
  rcases hres : env.get_reservation x with _ | parent
  · simp only [hres] at h
    exact absurd h (by simp)
  · simp only [hres] at h
    rcases hv : verify_reservation_configuration env parent sys with _ | b
    · simp only [hv] at h
      exact absurd h (by simp)
    · simp only [hv] at h
      cases b with
      | false => exact absurd h (by simp)
      | true =>
        rcases hpx : per x with _ | _ | ⟨capsx, rcx⟩
        · simp only [hpx] at h
          exact absurd h (by simp)
        · simp only [hpx] at h
          exact absurd h (by simp)
        · simp only [hpx] at h
          by_cases hrcx : rcx ≠ 0
          · rw [if_pos hrcx] at h
            injection h with h1 h2
            exact absurd h2 hrcx
          · push_neg at hrcx
            subst hrcx
            rw [if_neg (by simp)] at h
            by_cases hcx : capsx = []
            · rw [if_pos ⟨hcx, trivial⟩] at h
              exact absurd h (by simp)
            · rw [if_neg (fun hh => hcx hh.1)] at h
              rcases hrest : assess_loop env per sys true xs with _ | _ | ⟨caps2, code2⟩
              · simp only [hrest] at h
                exact absurd h (by simp)
              · simp only [hrest] at h
                exact absurd h (by simp)
              · simp only [hrest] at h
                by_cases hc2 : code2 ≠ 0
                · rw [if_pos hc2] at h
                  injection h with h1 h2
                  exact absurd h2 hc2
                · push_neg at hc2
                  subst hc2
                  rw [if_neg (by simp)] at h
                  injection h with h1 h2
                  exact ⟨parent, capsx, caps2, rfl, hv, rfl, hcx, rfl, h1.symm⟩

lemma assess_loop_ok_zero_no_zero_entry (env : Env)
    (per : CapacityLink → AssessResult) (sys : SystemCharacteristics) :
    ∀ links caps, assess_loop env per sys true links = .ok caps 0 →
      ∀ l ∈ links, per l ≠ .ok [] 0 := by
  intro links
  induction links with
  | nil =>
    intro caps h l hl
    cases hl
  | cons x xs ih =>
    intro caps h l hl
    obtain ⟨parent, capsx, caps2, hres, hv, hpx, hcx, hrest, hcaps⟩ :=
      assess_loop_cons_ok_zero env per sys x xs caps h
    rcases List.mem_cons.mp hl with rfl | hl2
    · intro hbad
      rw [hbad] at hpx
      injection hpx with h1 h2
      exact hcx h1.symm
    · exact ih caps2 hrest l hl2

/-- C4: when `validate_reservations` is true (caller-supplied top-level
links), a link whose per-link assessment succeeds with zero capacity entries
makes `assess_available_slices` return `([], 1)` (hard no-capacity error) —
equivalently, no successful overall call admits such a link — whereas with
`validate_reservations` false (the internally recursed case) such a link
merely contributes nothing and processing continues with code 0. -/
theorem c4_validate_gated_no_capacity_policy :
    (∀ n env l rest force sys vps parent,
      env.get_reservation l = some parent →
      verify_reservation_configuration env parent sys = some true →
      assess_for_reservation_fuel n env l force sys vps = .ok [] 0 →
      assess_fuel (n + 1) env (l :: rest) force sys vps true = .ok [] 1)
    ∧ (∀ n env links force sys vps caps,
      assess_fuel (n + 1) env links force sys vps true = .ok caps 0 →
      ∀ l ∈ links, assess_for_reservation_fuel n env l force sys vps ≠ .ok [] 0)
    ∧ (∀ n env l rest force sys vps,
      assess_for_reservation_fuel n env l force sys vps = .ok [] 0 →
      assess_fuel (n + 1) env (l :: rest) force sys vps false
        = assess_fuel (n + 1) env rest force sys vps false) := by
  refine ⟨?_, ?_, ?_⟩
  · intro n env l rest force sys vps parent hres hver hper
    have hloop : assess_loop env
        (fun x => assess_for_reservation_fuel n env x force sys vps)
        sys true (l :: rest) = .ok [] 1 := by
      simp only [assess_loop]
      rw [if_pos trivial]
      simp only [hres, hver, hper]
      simp
    rw [assess_fuel_eq_loop, hloop]
    simp
  · intro n env links force sys vps caps h
    rw [assess_fuel_eq_loop] at h
    rcases hl : assess_loop env
        (fun x => assess_for_reservation_fuel n env x force sys vps)
        sys true links with _ | _ | ⟨caps', rc'⟩
    · simp only [hl] at h
      exact absurd h (by simp)
    · simp only [hl] at h
      exact absurd h (by simp)
    · simp only [hl] at h
      by_cases hrc : rc' ≠ 0
      · rw [if_pos hrc] at h
        injection h with h1 h2
        exact absurd h2 hrc
      · push_neg at hrc
        subst hrc
        exact assess_loop_ok_zero_no_zero_entry env _ sys links caps' hl
  · intro n env l rest force sys vps hper
    have hloop : assess_loop env
        (fun x => assess_for_reservation_fuel n env x force sys vps)
        sys false (l :: rest)
        = assess_loop env
          (fun x => assess_for_reservation_fuel n env x force sys vps)
          sys false rest := by
      simp only [assess_loop]
      rw [if_neg (by simp)]
      simp only [hper]
      rcases hrest : assess_loop env
          (fun x => assess_for_reservation_fuel n env x force sys vps)
          sys false rest with _ | _ | ⟨caps2, code2⟩
      · simp [hrest]
      · simp [hrest]
      · simp only [hrest]
        by_cases hc : code2 = 0
        · subst hc
          simp
        · simp [hc]
    rw [assess_fuel_eq_loop, assess_fuel_eq_loop, hloop]

def res4 : Reservation := ⟨linkR, some ⟨2, 2, "m", []⟩, none⟩

def env4 : Env :=
  ⟨fun _ => some res4, fun _ => ([], 0), fun _ => ([], 0), fun p => p, false⟩

/-- Witness for C4 at a concrete zero-capacity reservation. -/
theorem c4_witness :
    (env4.get_reservation linkR = some res4
      ∧ verify_reservation_configuration env4 res4 sysTpu = some true
      ∧ assess_for_reservation_fuel 0 env4 linkR false sysTpu 1 = .ok [] 0)
    ∧ assess_fuel 1 env4 [linkR] false sysTpu 1 true = .ok [] 1 :=
  ⟨⟨rfl, by decide, by decide⟩,
    c4_validate_gated_no_capacity_policy.1 0 env4 linkR [] false sysTpu 1 res4
      rfl (by decide) (by decide)⟩

end Xpk

namespace Xpk

lemma flatten_err_imp_nil (env : Env) (l : CapacityLink) (vps : Int)
    (hrc : (get_healthy_and_fitting_sub_blocks_in_block env l vps).2 ≠ 0) :
    (get_healthy_and_fitting_sub_blocks_in_block env l vps).1 = [] := by
  by_cases hc : (env.list_healthy_sub_blocks l).2 ≠ 0
  · simp [get_healthy_and_fitting_sub_blocks_in_block, if_pos hc]
  · exfalso
    apply hrc
    simp [get_healthy_and_fitting_sub_blocks_in_block, if_neg hc]

lemma assess_for_reservation_err_nil (recurse : List CapacityLink → AssessResult)
    (hrec : ∀ bs caps rc, recurse bs = AssessResult.ok caps rc → rc ≠ 0 → caps = [])
    (env : Env) (link : CapacityLink) (force : Bool) (sys : SystemCharacteristics)
    (vps : Int) (caps : List ReservationCapacity) (rc : Int)
    (h : assess_for_reservation recurse env link force sys vps = AssessResult.ok caps rc)
    (hrc : rc ≠ 0) : caps = [] := by
  cases link with
  | SubBlockReservationLink p n z b s =>
    simp only [assess_for_reservation] at h
    rcases hg : get_available_slices_in_sub_block env
        (.SubBlockReservationLink p n z b s) vps with _ | ⟨a, c⟩
    · simp only [hg] at h
      exact absurd h (by simp)
    · simp only [hg] at h
      by_cases hc : c ≠ 0
      · rw [if_pos hc] at h
        injection h with h1 h2
        exact h1.symm
      · rw [if_neg hc] at h
        by_cases ha : 0 < a
        · rw [if_pos ha] at h
          injection h with h1 h2
          exact absurd h2.symm hrc
        · rw [if_neg ha] at h
          injection h with h1 h2
          exact h1.symm
  | BlockReservationLink p n z b =>
    simp only [assess_for_reservation] at h
    by_cases hf : force = true
    · rw [if_pos hf] at h
      injection h with h1 h2
      subst h1
      subst h2
      exact flatten_err_imp_nil env _ vps hrc
    · rw [if_neg hf] at h
      rcases hg : get_reservation_slices_count env
          (.BlockReservationLink p n z b) sys vps with _ | ⟨sc, rc2⟩
      · simp only [hg] at h
        exact absurd h (by simp)
      · simp only [hg] at h
        by_cases hc : rc2 ≠ 0
        · rw [if_pos hc] at h
          injection h with h1 h2
          exact h1.symm
        · rw [if_neg hc] at h
          by_cases hp : 0 < sc
          · rw [if_pos hp] at h
            injection h with h1 h2
            exact absurd h2.symm hrc
          · rw [if_neg hp] at h
            injection h with h1 h2
            exact h1.symm
  | ReservationLink p n z =>
    simp only [assess_for_reservation] at h
    by_cases hf : force = true
    · rw [if_pos hf] at h
      by_cases h2 : (env.get_blocks_in_reservation (.ReservationLink p n z)).2 ≠ 0
      · rw [if_pos h2] at h
        injection h with h1 h2'
        exact h1.symm
      · rw [if_neg h2] at h
        by_cases hb : (env.get_blocks_in_reservation (.ReservationLink p n z)).1 = []
        · rw [if_pos hb] at h
          injection h with h1 h2'
          exact absurd h2'.symm hrc
        · rw [if_neg hb] at h
          exact hrec _ caps rc h hrc
    · rw [if_neg hf] at h
      rcases hg : get_reservation_slices_count env
          (.ReservationLink p n z) sys vps with _ | ⟨sc, rc2⟩
      · simp only [hg] at h
        exact absurd h (by simp)
      · simp only [hg] at h
        by_cases hc : rc2 ≠ 0
        · rw [if_pos hc] at h
          injection h with h1 h2
          exact h1.symm
        · rw [if_neg hc] at h
          by_cases hp : 0 < sc
          · rw [if_pos hp] at h
            injection h with h1 h2
            exact absurd h2.symm hrc
          · rw [if_neg hp] at h
            injection h with h1 h2
            exact h1.symm

end Xpk

namespace Xpk

lemma assess_loop_err_nil (env : Env) (per : CapacityLink → AssessResult)
    (sys : SystemCharacteristics) (validate : Bool) :
    ∀ links caps rc, assess_loop env per sys validate links = AssessResult.ok caps rc →
      rc ≠ 0 → caps = [] := by
  intro links
  induction links with
  | nil =>
    intro caps rc h hrc
    injection h with h1 h2
    exact h1.symm
  | cons x xs ih =>
    intro caps rc h hrc
    simp only [assess_loop] at h
    have hstep : ∀ caps rc,
        (match per x with
          | AssessResult.fuelOut => AssessResult.fuelOut
          | AssessResult.exn => AssessResult.exn
          | AssessResult.ok capacities return_code =>
            if return_code ≠ 0 then AssessResult.ok [] return_code
            else if capacities = [] ∧ validate then AssessResult.ok [] 1
            else
              match assess_loop env per sys validate xs with
              | AssessResult.fuelOut => AssessResult.fuelOut
              | AssessResult.exn => AssessResult.exn
              | AssessResult.ok caps2 code2 =>
                if code2 ≠ 0 then AssessResult.ok caps2 code2
                else AssessResult.ok (capacities ++ caps2) 0)
          = AssessResult.ok caps rc → rc ≠ 0 → caps = [] := by
      intro caps rc h hrc
      rcases hpx : per x with _ | _ | ⟨capsx, rcx⟩
      · simp only [hpx] at h
        exact absurd h (by simp)
      · simp only [hpx] at h
        exact absurd h (by simp)
      · simp only [hpx] at h
        by_cases hc : rcx ≠ 0
        · rw [if_pos hc] at h
          injection h with h1 h2
          exact h1.symm
        · rw [if_neg hc] at h
          split at h
          · injection h with h1 h2
            exact h1.symm
          · rcases hrest : assess_loop env per sys validate xs with _ | _ | ⟨caps2, code2⟩
            · simp only [hrest] at h
              exact absurd h (by simp)
            · simp only [hrest] at h
              exact absurd h (by simp)
            · simp only [hrest] at h
              by_cases hc2 : code2 ≠ 0
              · rw [if_pos hc2] at h
                injection h with h1 h2
                exact h1 ▸ ih caps2 code2 hrest hc2
              · rw [if_neg hc2] at h
                injection h with h1 h2
                exact absurd h2.symm hrc
    by_cases hv : validate = true
    · rw [if_pos hv] at h
      rcases hres : env.get_reservation x with _ | parent
      · simp only [hres] at h
        injection h with h1 h2
        exact h1.symm
      · simp only [hres] at h
        rcases hver : verify_reservation_configuration env parent sys with _ | b
        · simp only [hver] at h
          exact absurd h (by simp)
        · simp only [hver] at h
          cases b with
          | false =>
            injection h with h1 h2
            exact h1.symm
          | true => exact hstep caps rc h hrc
    · rw [if_neg hv] at h
      exact hstep caps rc h hrc

lemma assess_fuel_err_nil :
    ∀ (n : Nat) (env : Env) (links : List CapacityLink) (force : Bool)
      (sys : SystemCharacteristics) (vps : Int) (validate : Bool)
      (caps : List ReservationCapacity) (rc : Int),
      assess_fuel n env links force sys vps validate = AssessResult.ok caps rc →
      rc ≠ 0 → caps = [] := by
  intro n
  induction n with
  | zero =>
    intro env links force sys vps validate caps rc h hrc
    exact absurd h (by simp [assess_fuel])
  | succ m ih =>
    intro env links force sys vps validate caps rc h hrc
    rw [assess_fuel_eq_loop] at h
    rcases hl : assess_loop env
        (fun l => assess_for_reservation_fuel m env l force sys vps)
        sys validate links with _ | _ | ⟨caps', rc'⟩
    · simp only [hl] at h
      exact absurd h (by simp)
    · simp only [hl] at h
      exact absurd h (by simp)
    · simp only [hl] at h
      by_cases hc : rc' ≠ 0
      · rw [if_pos hc] at h
        injection h with h1 h2
        exact h1 ▸ assess_loop_err_nil env _ sys validate links caps' rc' hl hc
      · rw [if_neg hc] at h
        injection h with h1 h2
        exact absurd h2.symm hrc

/-- C6 counterexample: calling `assess_available_slices` with an empty link
list (and default validation) succeeds with code 0 and an empty capacity
list, so success does not guarantee a non-empty result for every input. -/
theorem c6_counterexample :
    assess_fuel 2 env10 [] false sysTpu 1 true = AssessResult.ok [] 0 := by decide

/-- C6 (amended): whenever `assess_available_slices` returns a non-zero code
the capacity list is empty (no partial results on failure), and a successful
call over a non-empty link list with validation enabled returns a non-empty
capacity list. -/
theorem c6_amended_failure_empty_success_nonempty :
    (∀ n env links force sys vps validate caps rc,
      assess_fuel n env links force sys vps validate = AssessResult.ok caps rc →
      rc ≠ 0 → caps = [])
    ∧ (∀ n env links force sys vps caps,
      links ≠ [] →
      assess_fuel (n + 1) env links force sys vps true = AssessResult.ok caps 0 →
      caps ≠ []) := by
  refine ⟨assess_fuel_err_nil, ?_⟩
  intro n env links force sys vps caps hne h
  cases links with
  | nil => exact absurd rfl hne
  | cons x xs =>
    rw [assess_fuel_eq_loop] at h
    rcases hl : assess_loop env
        (fun l => assess_for_reservation_fuel n env l force sys vps)
        sys true (x :: xs) with _ | _ | ⟨raw, rc'⟩
    · simp only [hl] at h
      exact absurd h (by simp)
    · simp only [hl] at h
      exact absurd h (by simp)
    · simp only [hl] at h
      by_cases hc : rc' ≠ 0
      · rw [if_pos hc] at h
        injection h with h1 h2
        exact absurd h2 hc
      · push_neg at hc
        subst hc
        rw [if_neg (by simp)] at h
        injection h with h1 h2
        obtain ⟨parent, capsx, caps2, hres, hv, hpx, hcx, hrest, hcaps⟩ :=
          assess_loop_cons_ok_zero env _ sys x xs raw hl
        have hraw : raw ≠ [] := by
          rw [hcaps]
          intro hap
          exact hcx (List.append_eq_nil.mp hap).1
        rw [← h1]
        exact dedupFirst_ne_nil hraw

/-- Witness for the amended C6 at a concrete one-link environment. -/
theorem c6_amended_witness :
    ([linkR] ≠ ([] : List CapacityLink)
      ∧ assess_fuel 1 envFl [linkR] false sysTpu 3 true
        = AssessResult.ok [⟨linkR, 2⟩] 0)
    ∧ [(⟨linkR, 2⟩ : ReservationCapacity)] ≠ [] :=
  ⟨⟨by decide, by decide⟩,
    c6_amended_failure_empty_success_nonempty.2 0 envFl [linkR] false sysTpu 3
      [⟨linkR, 2⟩] (by decide) (by decide)⟩

end Xpk

namespace Xpk

/-- C7: every successful `assess_available_slices` result is the
first-occurrence de-duplication of the raw per-link accumulation: it has no
duplicates, is a sublist of the raw list (so relative order is preserved),
contains exactly the raw list's elements, and orders any two produced entries
by the positions of their first occurrences in the raw accumulation. -/
theorem c7_dedup_preserves_first_occurrence (n : Nat) (env : Env)
    (links : List CapacityLink) (force : Bool) (sys : SystemCharacteristics)
    (vps : Int) (validate : Bool) (caps : List ReservationCapacity)
    (h : assess_fuel (n + 1) env links force sys vps validate
      = AssessResult.ok caps 0) :
    ∃ raw, assess_loop env
        (fun l => assess_for_reservation_fuel n env l force sys vps)
        sys validate links = AssessResult.ok raw 0
      ∧ caps = dedupFirst raw
      ∧ caps.Nodup
      ∧ caps.Sublist raw
      ∧ (∀ x, x ∈ caps ↔ x ∈ raw)
      ∧ (∀ a b, a ∈ raw → b ∈ raw →
          (caps.indexOf a < caps.indexOf b ↔ raw.indexOf a < raw.indexOf b)) := by
  rw [assess_fuel_eq_loop] at h
  rcases hl : assess_loop env
      (fun l => assess_for_reservation_fuel n env l force sys vps)
      sys validate links with _ | _ | ⟨raw, rc⟩
  · simp only [hl] at h
    exact absurd h (by simp)
  · simp only [hl] at h
    exact absurd h (by simp)
  · simp only [hl] at h
    by_cases hc : rc ≠ 0
    · rw [if_pos hc] at h
      injection h with h1 h2
      exact absurd h2 hc
    · push_neg at hc
      subst hc
      rw [if_neg (by simp)] at h
      injection h with h1 h2
      subst h1
      refine ⟨raw, rfl, rfl, nodup_dedupFirstGo [] raw, sublist_dedupFirstGo [] raw,
        ?_, ?_⟩
      · intro x
        rw [dedupFirst, mem_dedupFirstGo]
        simp
      · intro a b har hbr
        exact indexOf_dedupFirstGo [] raw a b har hbr (by simp) (by simp)

def env7 : Env :=
  ⟨fun _ => some ⟨linkR, some ⟨10, 2, "m", []⟩, none⟩,
    fun _ => ([], 0), fun _ => ([], 0), fun p => p, false⟩

/-- Witness for C7: the same link supplied twice produces the duplicate entry
exactly once, at its first-occurrence position. -/
theorem c7_witness :
    assess_fuel 1 env7 [linkR, linkR] false sysTpu 1 true
      = AssessResult.ok [⟨linkR, 8⟩] 0
    ∧ ∃ raw, assess_loop env7
        (fun l => assess_for_reservation_fuel 0 env7 l false sysTpu 1)
        sysTpu true [linkR, linkR] = AssessResult.ok raw 0
      ∧ [(⟨linkR, 8⟩ : ReservationCapacity)] = dedupFirst raw
      ∧ [(⟨linkR, 8⟩ : ReservationCapacity)].Nodup
      ∧ [(⟨linkR, 8⟩ : ReservationCapacity)].Sublist raw
      ∧ (∀ x, x ∈ [(⟨linkR, 8⟩ : ReservationCapacity)] ↔ x ∈ raw)
      ∧ (∀ a b, a ∈ raw → b ∈ raw →
          ([(⟨linkR, 8⟩ : ReservationCapacity)].indexOf a
              < [(⟨linkR, 8⟩ : ReservationCapacity)].indexOf b
            ↔ raw.indexOf a < raw.indexOf b)) :=
  ⟨by decide,
    c7_dedup_preserves_first_occurrence 0 env7 [linkR, linkR] false sysTpu 1 true
      [⟨linkR, 8⟩] (by decide)⟩

end Xpk

namespace Xpk

/-- Recognizer for the reservation-level link variant. -/
def CapacityLink.isReservationLink : CapacityLink → Bool
  | .ReservationLink _ _ _ => true
  | _ => false

lemma isBlockLink_not_reservation {l : CapacityLink} (h : l.isBlockLink = true) :
    l.isReservationLink = false := by
  cases l <;> simp_all [CapacityLink.isBlockLink, CapacityLink.isReservationLink]

lemma assess_for_reservation_recurse_irrelevant
    (r1 r2 : List CapacityLink → AssessResult) (env : Env) (link : CapacityLink)
    (force : Bool) (sys : SystemCharacteristics) (vps : Int)
    (hnr : link.isReservationLink = false) :
    assess_for_reservation r1 env link force sys vps
      = assess_for_reservation r2 env link force sys vps := by
  cases link with
  | ReservationLink p n z => simp [CapacityLink.isReservationLink] at hnr
  | BlockReservationLink p n z b => simp [assess_for_reservation]
  | SubBlockReservationLink p n z b s => simp [assess_for_reservation]

lemma assess_for_reservation_recurse_irrelevant_noforce
    (r1 r2 : List CapacityLink → AssessResult) (env : Env) (link : CapacityLink)
    (sys : SystemCharacteristics) (vps : Int) :
    assess_for_reservation r1 env link false sys vps
      = assess_for_reservation r2 env link false sys vps := by
  cases link <;> simp [assess_for_reservation]

lemma assess_loop_congr (env : Env) (per1 per2 : CapacityLink → AssessResult)
    (sys : SystemCharacteristics) (validate : Bool) :
    ∀ links, (∀ l ∈ links, per1 l = per2 l) →
      assess_loop env per1 sys validate links
        = assess_loop env per2 sys validate links := by
  intro links
  induction links with
  | nil =>
    intro _
    rfl
  | cons x xs ih =>
    intro hmem
    have hx := hmem x (List.mem_cons_self x xs)
    have hxs := ih (fun l hl => hmem l (List.mem_cons_of_mem x hl))
    simp only [assess_loop, hx, hxs]

lemma assess_for_reservation_block_ne_fuelOut
    (recurse : List CapacityLink → AssessResult) (env : Env) (l : CapacityLink)
    (force : Bool) (sys : SystemCharacteristics) (vps : Int)
    (hnr : l.isReservationLink = false) :
    assess_for_reservation recurse env l force sys vps ≠ AssessResult.fuelOut := by
  cases l with
  | ReservationLink p n z => simp [CapacityLink.isReservationLink] at hnr
  | BlockReservationLink p n z b =>
    simp only [assess_for_reservation]
    by_cases hf : force = true
    · rw [if_pos hf]
      simp
    · rw [if_neg hf]
      rcases hg : get_reservation_slices_count env
          (.BlockReservationLink p n z b) sys vps with _ | ⟨sc, rc⟩
      · simp [hg]
      · simp only [hg]
        by_cases hc : rc ≠ 0
        · simp [hc]
        · rw [if_neg hc]
          by_cases hp : 0 < sc <;> simp [hp]
  | SubBlockReservationLink p n z b s =>
    simp only [assess_for_reservation]
    rcases hg : get_available_slices_in_sub_block env
        (.SubBlockReservationLink p n z b s) vps with _ | ⟨a, c⟩
    · simp [hg]
    · simp only [hg]
      by_cases hc : c ≠ 0
      · simp [hc]
      · rw [if_neg hc]
        by_cases hp : 0 < a <;> simp [hp]

lemma assess_loop_ne_fuelOut (env : Env) (per : CapacityLink → AssessResult)
    (sys : SystemCharacteristics) (validate : Bool) :
    ∀ links, (∀ l ∈ links, per l ≠ AssessResult.fuelOut) →
      assess_loop env per sys validate links ≠ AssessResult.fuelOut := by
  intro links
  induction links with
  | nil =>
    intro _
    simp [assess_loop]
  | cons x xs ih =>
    intro hmem
    have hx := hmem x (List.mem_cons_self x xs)
    have hxs := ih (fun l hl => hmem l (List.mem_cons_of_mem x hl))
    simp only [assess_loop]
    have hstep : (match per x with
        | AssessResult.fuelOut => AssessResult.fuelOut
        | AssessResult.exn => AssessResult.exn
        | AssessResult.ok capacities return_code =>
          if return_code ≠ 0 then AssessResult.ok [] return_code
          else if capacities = [] ∧ validate then AssessResult.ok [] 1
          else
            match assess_loop env per sys validate xs with
            | AssessResult.fuelOut => AssessResult.fuelOut
            | AssessResult.exn => AssessResult.exn
            | AssessResult.ok caps2 code2 =>
              if code2 ≠ 0 then AssessResult.ok caps2 code2
              else AssessResult.ok (capacities ++ caps2) 0)
        ≠ AssessResult.fuelOut := by
      split
      · rename_i heq
        exact absurd heq hx
      · simp
      · rename_i capsx rcx heq
        by_cases hc : rcx ≠ 0
        · simp [hc]
        · rw [if_neg hc]
          split
          · simp
          · split
            · rename_i heq2
              exact absurd heq2 hxs
            · simp
            · rename_i c2 r2 heq2
              by_cases h2 : r2 ≠ 0 <;> simp [h2]
    by_cases hv : validate = true
    · rw [if_pos hv]
      split
      · simp
      · split
        · simp
        · simp
        · exact hstep
    · rw [if_neg hv]
      exact hstep

end Xpk

namespace Xpk

lemma assess_fuel_blocks_indep (env : Env)
    (bs : List CapacityLink) (hbs : ∀ b ∈ bs, b.isBlockLink = true)
    (n m : Nat) (force : Bool) (sys : SystemCharacteristics) (vps : Int)
    (validate : Bool) :
    assess_fuel (n + 1) env bs force sys vps validate
      = assess_fuel (m + 1) env bs force sys vps validate := by
  rw [assess_fuel_eq_loop, assess_fuel_eq_loop]
  have hcongr : assess_loop env
      (fun l => assess_for_reservation_fuel n env l force sys vps)
      sys validate bs
      = assess_loop env
        (fun l => assess_for_reservation_fuel m env l force sys vps)
        sys validate bs := by
    apply assess_loop_congr
    intro l hl
    exact assess_for_reservation_recurse_irrelevant _ _ env l force sys vps
      (isBlockLink_not_reservation (hbs l hl))
  rw [hcongr]

lemma assess_for_reservation_fuel_ge_one (env : Env) (hwf : env.WellFormedBlocks)
    (n m : Nat) (l : CapacityLink) (force : Bool) (sys : SystemCharacteristics)
    (vps : Int) :
    assess_for_reservation_fuel (n + 1) env l force sys vps
      = assess_for_reservation_fuel (m + 1) env l force sys vps := by
  cases l with
  | ReservationLink p nm z =>
    by_cases hf : force = true
    · subst hf
      simp only [assess_for_reservation_fuel, assess_for_reservation]
      by_cases h2 : (env.get_blocks_in_reservation (.ReservationLink p nm z)).2 ≠ 0
      · rw [if_pos h2, if_pos h2]
      · rw [if_neg h2, if_neg h2]
        by_cases hb : (env.get_blocks_in_reservation (.ReservationLink p nm z)).1 = []
        · rw [if_pos hb, if_pos hb]
        · rw [if_neg hb, if_neg hb]
          exact assess_fuel_blocks_indep env _
            (fun b hbm => hwf (.ReservationLink p nm z) b hbm) n m true sys vps false
    · have hf' : force = false := by
        revert hf
        cases force <;> simp
      subst hf'
      exact assess_for_reservation_recurse_irrelevant_noforce _ _ env _ sys vps
  | BlockReservationLink p nm z b =>
    exact assess_for_reservation_recurse_irrelevant _ _ env _ force sys vps rfl
  | SubBlockReservationLink p nm z b s =>
    exact assess_for_reservation_recurse_irrelevant _ _ env _ force sys vps rfl

lemma assess_fuel_blocks_ne_fuelOut (env : Env)
    (bs : List CapacityLink) (hbs : ∀ b ∈ bs, b.isBlockLink = true)
    (n : Nat) (force : Bool) (sys : SystemCharacteristics) (vps : Int)
    (validate : Bool) :
    assess_fuel (n + 1) env bs force sys vps validate ≠ AssessResult.fuelOut := by
  rw [assess_fuel_eq_loop]
  have hloop := assess_loop_ne_fuelOut env
    (fun l => assess_for_reservation_fuel n env l force sys vps) sys validate bs
    (fun l hl => assess_for_reservation_block_ne_fuelOut _ env l force sys vps
      (isBlockLink_not_reservation (hbs l hl)))
  rcases hres : assess_loop env
      (fun l => assess_for_reservation_fuel n env l force sys vps)
      sys validate bs with _ | _ | ⟨c, r⟩
  · exact absurd hres hloop
  · simp
  · by_cases h : r ≠ 0 <;> simp [h]

lemma assess_for_reservation_fuel_succ_ne_fuelOut (env : Env)
    (hwf : env.WellFormedBlocks) (n : Nat) (l : CapacityLink) (force : Bool)
    (sys : SystemCharacteristics) (vps : Int) :
    assess_for_reservation_fuel (n + 1) env l force sys vps
      ≠ AssessResult.fuelOut := by
  cases l with
  | ReservationLink p nm z =>
    by_cases hf : force = true
    · subst hf
      simp only [assess_for_reservation_fuel, assess_for_reservation]
      by_cases h2 : (env.get_blocks_in_reservation (.ReservationLink p nm z)).2 ≠ 0
      · simp [if_pos h2]
      · rw [if_neg h2]
        by_cases hb : (env.get_blocks_in_reservation (.ReservationLink p nm z)).1 = []
        · simp [if_pos hb]
        · rw [if_neg hb]
          exact assess_fuel_blocks_ne_fuelOut env _
            (fun b hbm => hwf (.ReservationLink p nm z) b hbm) n true sys vps false
    · have hf' : force = false := by
        revert hf
        cases force <;> simp
      subst hf'
      simp only [assess_for_reservation_fuel, assess_for_reservation]
      rw [if_neg (by simp)]
      rcases hg : get_reservation_slices_count env
          (.ReservationLink p nm z) sys vps with _ | ⟨sc, rc⟩
      · simp [hg]
      · simp only [hg]
        by_cases hc : rc ≠ 0
        · simp [hc]
        · rw [if_neg hc]
          by_cases hp : 0 < sc <;> simp [hp]
  | BlockReservationLink p nm z b =>
    exact assess_for_reservation_block_ne_fuelOut _ env _ force sys vps rfl
  | SubBlockReservationLink p nm z b s =>
    exact assess_for_reservation_block_ne_fuelOut _ env _ force sys vps rfl

end Xpk

namespace Xpk

/-- C9: under a well-formed accessor (block listings contain only block-level
links), the fueled orchestrator stabilizes at fuel 2 — recursion depth 2
suffices for every input and fuel 2 never exhausts — block- and
sub-block-level links never re-enter `assess_available_slices` (their
assessment is independent of the recursion budget, even at budget zero), and
the sole recursive re-entry is a reservation-level link under sub-block
targeting whose block list is non-empty, re-entered with validation off. -/
theorem c9_termination_depth_two (env : Env) (hwf : env.WellFormedBlocks) :
    (∀ n links force sys vps validate,
      assess_fuel (n + 2) env links force sys vps validate
        = assess_fuel 2 env links force sys vps validate)
    ∧ (∀ links force sys vps validate,
      assess_fuel 2 env links force sys vps validate ≠ AssessResult.fuelOut)
    ∧ (∀ l force sys vps, l.isReservationLink = false →
      (∀ j k, assess_for_reservation_fuel j env l force sys vps
        = assess_for_reservation_fuel k env l force sys vps)
      ∧ ∀ k, assess_for_reservation_fuel k env l force sys vps
        ≠ AssessResult.fuelOut)
    ∧ (∀ k p nm z sys vps blocks,
      env.get_blocks_in_reservation (.ReservationLink p nm z) = (blocks, 0) →
      blocks ≠ [] →
      assess_for_reservation_fuel k env (.ReservationLink p nm z) true sys vps
        = assess_fuel k env blocks true sys vps false) := by
  refine ⟨?_, ?_, ?_, ?_⟩
  · intro n links force sys vps validate
    rw [assess_fuel_eq_loop, assess_fuel_eq_loop]
    have hcongr : assess_loop env
        (fun l => assess_for_reservation_fuel (n + 1) env l force sys vps)
        sys validate links
        = assess_loop env
          (fun l => assess_for_reservation_fuel 1 env l force sys vps)
          sys validate links := by
      apply assess_loop_congr
      intro l _
      have h := assess_for_reservation_fuel_ge_one env hwf n 0 l force sys vps
      simpa using h
    rw [hcongr]
  · intro links force sys vps validate
    rw [assess_fuel_eq_loop]
    have hloop := assess_loop_ne_fuelOut env
      (fun l => assess_for_reservation_fuel 1 env l force sys vps)
      sys validate links
      (fun l _ => by
        have h := assess_for_reservation_fuel_succ_ne_fuelOut env hwf 0 l force sys vps
        simpa using h)
    rcases hres : assess_loop env
        (fun l => assess_for_reservation_fuel 1 env l force sys vps)
        sys validate links with _ | _ | ⟨c, r⟩
    · exact absurd hres hloop
    · simp
    · by_cases h : r ≠ 0 <;> simp [h]
  · intro l force sys vps hnr
    constructor
    · intro j k
      exact assess_for_reservation_recurse_irrelevant _ _ env l force sys vps hnr
    · intro k
      exact assess_for_reservation_block_ne_fuelOut _ env l force sys vps hnr
  · intro k p nm z sys vps blocks hg hbne
    simp only [assess_for_reservation_fuel, assess_for_reservation, hg]
    simp [hbne]

/-- Witness for C9 at a concrete well-formed environment. -/
theorem c9_witness :
    Env.WellFormedBlocks env7
    ∧ ((∀ n links force sys vps validate,
      assess_fuel (n + 2) env7 links force sys vps validate
        = assess_fuel 2 env7 links force sys vps validate)
    ∧ (∀ links force sys vps validate,
      assess_fuel 2 env7 links force sys vps validate ≠ AssessResult.fuelOut)
    ∧ (∀ l force sys vps, l.isReservationLink = false →
      (∀ j k, assess_for_reservation_fuel j env7 l force sys vps
        = assess_for_reservation_fuel k env7 l force sys vps)
      ∧ ∀ k, assess_for_reservation_fuel k env7 l force sys vps
        ≠ AssessResult.fuelOut)
    ∧ (∀ k p nm z sys vps blocks,
      env7.get_blocks_in_reservation (.ReservationLink p nm z) = (blocks, 0) →
      blocks ≠ [] →
      assess_for_reservation_fuel k env7 (.ReservationLink p nm z) true sys vps
        = assess_fuel k env7 blocks true sys vps false)) :=
  ⟨fun _ b hb => absurd hb (List.not_mem_nil b),
    c9_termination_depth_two env7 (fun _ b hb => absurd hb (List.not_mem_nil b))⟩

end Xpk
